import Mathlib

/-!
Shallow embedding of the HubSpot property-management script
(`src/index.ts`).  The script drives three sequential workflows against a
remote HTTP API: importing property definitions from a CSV export
(`importProperties`), bulk-deleting properties (`deletePropertiesFromCSV`)
and bulk-deleting property groups (`deleteGroupsFromCSV`).

Modelling conventions:
* Remote HTTP requests are recorded, in issue order, as `Event` values.
* The remote store (groups and property definitions) is threaded
  explicitly as a `Store` inside a run state `St` together with a request
  counter `tick`.
* Transport failures are modelled by a schedule `err : Nat → Bool`: the
  n-th HTTP request of the run throws exactly when `err n` is `true`.
  In the source every request is wrapped in `try/catch`, so a throw never
  escapes a workflow; it only changes the local control flow, which the
  definitions below reproduce branch by branch.
* `JSON.parse` (applied to the serialized `options` column) is a
  parameter `jparse : String → Option String`: `none` models a throw,
  `some v` models the parsed value.  The payload carries the parsed value
  abstractly as the `String` it came from.
* The remote server itself is outside the repository; its reaction to a
  successful create/update/delete is modelled from the spec's data model
  (the `name` field is the unique key of the remote collection).
-/

/-- The `Property` interface of `src/index.ts` (lines 39-52). -/
structure Property where
  name : String
  label : String
  type : String
  description : String
  groupName : String
  fieldType : String
  options : Option String
  readOnly : Bool
  calculated : Bool
  externalOptions : Bool
  deleted : Bool
  hubspotDefined : Bool
deriving Repr, DecidableEq

/-- One CSV row of the HubSpot export, with the columns the script reads.
Field names stand for the column headers used in `src/index.ts`
(for example `internalName` is the column named Internal name). -/
structure Row where
  internalName : String
  displayName : String
  type : String
  description : String
  groupName : String
  formField : String
  options : String
  readOnlyValue : String
  calculated : String
  externalOptions : String
  deleted : String
  hubspotDefined : String
deriving Repr, DecidableEq

/-- The JSON body sent by `createOrUpdateProperty` (lines 135-144 of
`src/index.ts`): the named fields, the derived `formField` flag and the
deserialized `options` (`none` models the JS value `undefined`). -/
structure Payload where
  name : String
  label : String
  description : String
  groupName : String
  type : String
  fieldType : String
  formField : Bool
  options : Option String
deriving Repr, DecidableEq

/-- One remote HTTP request issued by the script, or the fixed rate-limit
pause of the batch deleter. -/
inductive Event where
  /-- GET on the groups collection (`createGroupIfNotExists`). -/
  | getGroups : Event
  /-- POST of a new group (`createGroupIfNotExists`). -/
  | postGroup (name : String) : Event
  /-- GET on the property collection (`getAllCustomProperties`). -/
  | getAllProps : Event
  /-- GET of one property by name (`getPropertyDetails`). -/
  | getPropByName (name : String) : Event
  /-- POST of a new property to the collection URL. -/
  | createProp (payload : Payload) : Event
  /-- PUT of a property addressed by name. -/
  | updateProp (name : String) (payload : Payload) : Event
  /-- DELETE of one property by name (`deleteProperty`). -/
  | deleteProp (name : String) : Event
  /-- DELETE of one group by name (`deleteGroup`). -/
  | deleteGroupCall (name : String) : Event
  /-- The 1-second `setTimeout` pause of `deletePropertiesFromCSV`. -/
  | pause : Event
deriving Repr, DecidableEq

/-- The remote store: the groups collection and the property collection.
Modelled from the spec: `name` is the unique key of each collection. -/
structure Store where
  groups : List String
  props : List Property
deriving Repr, DecidableEq

/-- Run state: the remote store plus the count of HTTP requests issued so
far (the index into the failure schedule). -/
structure St where
  store : Store
  tick : Nat
deriving Repr, DecidableEq

/-- The failure schedule under which every request succeeds. -/
def noErr : Nat → Bool := fun _ => false

/-- The row handler of `importProperties` (lines 194-211 of
`src/index.ts`): a row whose Hubspot defined column is the string true is
skipped, every other row is normalized into a `Property`. -/
def parseRow (r : Row) : Option Property :=
  if r.hubspotDefined = "true" then none
  else some
    { name := r.internalName
      label := r.displayName
      type := r.type
      description := r.description
      groupName := r.groupName
      fieldType := if r.formField = "true" then "text" else "textarea"
      options := some r.options
      readOnly := r.readOnlyValue = "true"
      calculated := r.calculated = "true"
      externalOptions := r.externalOptions = "true"
      deleted := r.deleted = "true"
      hubspotDefined := false }

/-- The request body of `createOrUpdateProperty` with a given deserialized
`options` value. -/
def basePayload (p : Property) (o : Option String) : Payload :=
  { name := p.name
    label := p.label
    description := p.description
    groupName := p.groupName
    type := p.type
    fieldType := p.fieldType
    formField := p.fieldType == "text"
    options := o }

/-- Building the request body of `createOrUpdateProperty` (lines 135-144):
`prop.options ? JSON.parse(prop.options) : undefined`.  A missing or empty
(falsy) `options` string yields `undefined`; otherwise `JSON.parse` runs
and a throw (`jparse s = none`) aborts the body construction. -/
def mkPayload (jparse : String → Option String) (p : Property) : Option Payload :=
  match p.options with
  | none => some (basePayload p none)
  | some s =>
      if s = "" then some (basePayload p none)
      else (jparse s).map (fun v => basePayload p (some v))

/-- Modelled from the spec: the entity the remote server stores after a
successful create or update with body `pl` (the keyed fields come from the
body; server-side flags start cleared). -/
def payloadToProperty (pl : Payload) : Property :=
  { name := pl.name
    label := pl.label
    type := pl.type
    description := pl.description
    groupName := pl.groupName
    fieldType := pl.fieldType
    options := pl.options
    readOnly := false
    calculated := false
    externalOptions := false
    deleted := false
    hubspotDefined := false }

/-- GET of the groups collection: on success the current group list, on a
scheduled failure `none` (the request throws). -/
def doGetGroups (err : Nat → Bool) (s : St) : Option (List String) × St × List Event :=
  (if err s.tick then none else some s.store.groups,
   { s with tick := s.tick + 1 }, [Event.getGroups])

/-- POST of a new group: on success the group is appended remotely. -/
def doPostGroup (err : Nat → Bool) (g : String) (s : St) : Bool × St × List Event :=
  (!(err s.tick),
   { store := if err s.tick then s.store
              else { s.store with groups := s.store.groups ++ [g] }
     tick := s.tick + 1 },
   [Event.postGroup g])

/-- Lines 65-94 of `src/index.ts`: fetch the groups, and create the group
when no fetched group bears the name.  Both requests sit in one
`try/catch`, so a failed fetch skips the create and any failure is only
logged. -/
def createGroupIfNotExists (err : Nat → Bool) (g : String) (s : St) : St × List Event :=
  match doGetGroups err s with
  | (none, s1, c1) => (s1, c1)
  | (some gs, s1, c1) =>
      if gs.any (fun x => x == g) then (s1, c1)
      else
        let r := doPostGroup err g s1
        (r.2.1, c1 ++ r.2.2)

/-- Lines 113-124 of `src/index.ts`: GET one property by name; every
failure (including not-found, which the remote signals as an error status)
is caught and returned as `null`. -/
def getPropertyDetails (err : Nat → Bool) (n : String) (s : St) :
    Option Property × St × List Event :=
  (if err s.tick then none else s.store.props.find? (fun p => p.name == n),
   { s with tick := s.tick + 1 }, [Event.getPropByName n])

/-- POST of a new property: on success the entity is appended remotely. -/
def doCreateProp (err : Nat → Bool) (pl : Payload) (s : St) : Bool × St × List Event :=
  (!(err s.tick),
   { store := if err s.tick then s.store
              else { s.store with props := s.store.props ++ [payloadToProperty pl] }
     tick := s.tick + 1 },
   [Event.createProp pl])

/-- PUT of a property by name: on success every remote entity bearing the
name is replaced by the transmitted body (full replace). -/
def doUpdateProp (err : Nat → Bool) (n : String) (pl : Payload) (s : St) :
    Bool × St × List Event :=
  (!(err s.tick),
   { store := if err s.tick then s.store
              else { s.store with
                     props := s.store.props.map
                       (fun p => if p.name == n then payloadToProperty pl else p) }
     tick := s.tick + 1 },
   [Event.updateProp n pl])

/-- Lines 126-169 of `src/index.ts`: look the property up by name, then
issue a PUT addressed by the name when it was found and a POST to the
collection otherwise.  The body is built after the lookup; a `JSON.parse`
throw on `options` is caught by the surrounding handler, so no mutation
request is issued and `false` is returned.  A failed mutation request is
also caught and returns `false`. -/
def createOrUpdateProperty (jparse : String → Option String) (err : Nat → Bool)
    (prop : Property) (s : St) : Bool × St × List Event :=
  match getPropertyDetails err prop.name s with
  | (existing, s1, c1) =>
    match mkPayload jparse prop with
    | none => (false, s1, c1)
    | some pl =>
      match existing with
      | some _ =>
          let r := doUpdateProp err prop.name pl s1
          (r.1, r.2.1, c1 ++ r.2.2)
      | none =>
          let r := doCreateProp err pl s1
          (r.1, r.2.1, c1 ++ r.2.2)

/-- The body of the per-property loop of `importProperties` (lines
217-223): ensure the group, then create or update the property. -/
def importProp (jparse : String → Option String) (err : Nat → Bool)
    (p : Property) (s : St) : St × List Event :=
  ((createOrUpdateProperty jparse err p (createGroupIfNotExists err p.groupName s).1).2.1,
   (createGroupIfNotExists err p.groupName s).2 ++
     (createOrUpdateProperty jparse err p (createGroupIfNotExists err p.groupName s).1).2.2)

/-- The per-property loop of `importProperties`, over the already-parsed
property list, in input order. -/
def runImport (jparse : String → Option String) (err : Nat → Bool) :
    List Property → St → St × List Event
  | [], s => (s, [])
  | p :: ps, s =>
      ((runImport jparse err ps (importProp jparse err p s).1).1,
       (importProp jparse err p s).2 ++
         (runImport jparse err ps (importProp jparse err p s).1).2)

/-- Lines 187-226 of `src/index.ts`: parse the rows (skipping built-in
ones), then run the per-property loop in input order. -/
def importProperties (jparse : String → Option String) (err : Nat → Bool)
    (rows : List Row) (s : St) : St × List Event :=
  runImport jparse err (rows.filterMap parseRow) s

/-- The per-row event segments of a run of the import loop: segment `i`
holds exactly the requests issued while processing property `i`. -/
def importSegments (jparse : String → Option String) (err : Nat → Bool) :
    List Property → St → List (List Event)
  | [], _ => []
  | p :: ps, s =>
      (importProp jparse err p s).2 ::
        importSegments jparse err ps (importProp jparse err p s).1

/-- Does the event carry a create-or-update (mutation) request on the
property collection? -/
def isMutation : Event → Bool
  | Event.createProp _ => true
  | Event.updateProp _ _ => true
  | _ => false

/-- Number of create-or-update requests in a trace. -/
def countMut (l : List Event) : Nat := (l.filter isMutation).length

/-- Is the event a create (POST) on the property collection? -/
def isCreateEvent : Event → Bool
  | Event.createProp _ => true
  | _ => false

/-- Number of create requests whose body bears the name `n`. -/
def createsFor (n : String) (l : List Event) : Nat :=
  (l.filter (fun e => match e with
    | Event.createProp pl => pl.name == n
    | _ => false)).length

/-- Does the remote property collection hold an entity named `n`? -/
def propPresent (n : String) (st : Store) : Bool :=
  st.props.any (fun p => p.name == n)

/-- Lines 96-111 of `src/index.ts`: GET the full property collection and
keep the non-built-in entries; any failure is caught and yields the empty
list. -/
def getAllCustomProperties (err : Nat → Bool) (s : St) :
    List Property × St × List Event :=
  (if err s.tick then [] else s.store.props.filter (fun p => !p.hubspotDefined),
   { s with tick := s.tick + 1 }, [Event.getAllProps])

/-- Lines 171-185 of `src/index.ts`: DELETE one property by name; returns
whether the request succeeded (a failure is caught and logged). -/
def deleteProperty (err : Nat → Bool) (n : String) (s : St) : Bool × St × List Event :=
  (!(err s.tick),
   { store := if err s.tick then s.store
              else { s.store with
                     props := s.store.props.filter (fun p => !(p.name == n)) }
     tick := s.tick + 1 },
   [Event.deleteProp n])

/-- Insertion into a JS `Set`: appended only when not yet present, so the
set iterates in first-occurrence order. -/
def insertUnique (l : List String) (x : String) : List String :=
  if l.contains x then l else l ++ [x]

/-- First-occurrence deduplication: the iteration order of a JS `Set`
filled from the list. -/
def dedupFirst (l : List String) : List String := l.foldl insertUnique []

/-- The deletion target set of `deletePropertiesFromCSV` (lines 233-242):
the Internal name of every non-built-in row, as a set in first-occurrence
order. -/
def targetsOfRows (rows : List Row) : List String :=
  dedupFirst ((rows.filter (fun r => r.hubspotDefined ≠ "true")).map
    (fun r => r.internalName))

/-- The body of the per-name loop of `deletePropertiesFromCSV` (lines
249-267): skip names missing from the snapshot; otherwise fetch details,
protect read-only or unfetchable entities (recording a failure), issue the
delete otherwise (recording a failure when it fails), and pause after
every name found in the snapshot.  Returns the names this step appends to
`failedDeletions`. -/
def deleteOne (err : Nat → Bool) (snapshot : List Property) (n : String) (s : St) :
    List String × St × List Event :=
  if snapshot.any (fun p => p.name == n) then
    match (getPropertyDetails err n s).1 with
    | some d =>
        if d.readOnly then
          ([n], (getPropertyDetails err n s).2.1,
           (getPropertyDetails err n s).2.2 ++ [Event.pause])
        else
          ((if (deleteProperty err n (getPropertyDetails err n s).2.1).1 then [] else [n]),
           (deleteProperty err n (getPropertyDetails err n s).2.1).2.1,
           (getPropertyDetails err n s).2.2 ++
             (deleteProperty err n (getPropertyDetails err n s).2.1).2.2 ++ [Event.pause])
    | none =>
        ([n], (getPropertyDetails err n s).2.1,
         (getPropertyDetails err n s).2.2 ++ [Event.pause])
  else ([], s, [])

/-- The per-name loop of `deletePropertiesFromCSV`, accumulating the
failure list in order. -/
def runDeletions (err : Nat → Bool) (snapshot : List Property) :
    List String → St → List String × St × List Event
  | [], s => ([], s, [])
  | n :: ns, s =>
      ((deleteOne err snapshot n s).1 ++
         (runDeletions err snapshot ns (deleteOne err snapshot n s).2.1).1,
       (runDeletions err snapshot ns (deleteOne err snapshot n s).2.1).2.1,
       (deleteOne err snapshot n s).2.2 ++
         (runDeletions err snapshot ns (deleteOne err snapshot n s).2.1).2.2)

/-- Lines 228-277 of `src/index.ts`: fetch the custom-property snapshot
once, build the target set from the CSV, run the per-name loop and return
the final `failedDeletions` list. -/
def deletePropertiesFromCSV (err : Nat → Bool) (rows : List Row) (s : St) :
    List String × St × List Event :=
  ((runDeletions err (getAllCustomProperties err s).1 (targetsOfRows rows)
      (getAllCustomProperties err s).2.1).1,
   (runDeletions err (getAllCustomProperties err s).1 (targetsOfRows rows)
      (getAllCustomProperties err s).2.1).2.1,
   (getAllCustomProperties err s).2.2 ++
     (runDeletions err (getAllCustomProperties err s).1 (targetsOfRows rows)
       (getAllCustomProperties err s).2.1).2.2)

/-- Lines 279-291 of `src/index.ts`: DELETE one group by name; a failure
is caught and logged. -/
def deleteGroup (err : Nat → Bool) (g : String) (s : St) : St × List Event :=
  ({ store := if err s.tick then s.store
              else { s.store with groups := s.store.groups.filter (fun x => x ≠ g) }
     tick := s.tick + 1 },
   [Event.deleteGroupCall g])

/-- The per-group loop of `deleteGroupsFromCSV`, in set iteration order. -/
def runGroupDeletions (err : Nat → Bool) : List String → St → St × List Event
  | [], s => (s, [])
  | g :: gs, s =>
      ((runGroupDeletions err gs (deleteGroup err g s).1).1,
       (deleteGroup err g s).2 ++
         (runGroupDeletions err gs (deleteGroup err g s).1).2)

/-- Lines 293-318 of `src/index.ts`: collect the distinct Group name
values of every row (no built-in filter) and delete each group once,
sequentially. -/
def deleteGroupsFromCSV (err : Nat → Bool) (rows : List Row) (s : St) :
    St × List Event :=
  runGroupDeletions err (dedupFirst (rows.map (fun r => r.groupName))) s

/-- Is the operation selector one of the three the switch accepts? -/
def validCommand (c : Option String) : Bool :=
  c = some "import" ∨ c = some "delete-properties" ∨ c = some "delete-groups"

/-- What the top-level script decides before running a workflow: abort
with exit code 1, or run one of the three workflows on the given path. -/
inductive MainOutcome where
  | exitConfigError : MainOutcome
  | runImportCmd (path : String) : MainOutcome
  | runDeletePropertiesCmd (path : String) : MainOutcome
  | runDeleteGroupsCmd (path : String) : MainOutcome
deriving Repr, DecidableEq

/-- Lines 54-59 and 320-345 of `src/index.ts`: the missing-credential
check at module load (a falsy `HUBSPOT_API_KEY`, i.e. unset or empty),
then the missing-path check (a falsy `args[1]`), then the switch on
`args[0]`; each failed check calls `process.exit(1)` before any remote
request. -/
def mainDispatch (apiKey : Option String) (args : List String) : MainOutcome :=
  if apiKey = none ∨ apiKey = some "" then MainOutcome.exitConfigError
  else if args[1]? = none ∨ args[1]? = some "" then MainOutcome.exitConfigError
  else if args[0]? = some "import" then
    MainOutcome.runImportCmd ((args[1]?).getD "")
  else if args[0]? = some "delete-properties" then
    MainOutcome.runDeletePropertiesCmd ((args[1]?).getD "")
  else if args[0]? = some "delete-groups" then
    MainOutcome.runDeleteGroupsCmd ((args[1]?).getD "")
  else MainOutcome.exitConfigError

/-- A whole process run: the exit code and the remote requests issued.  A
configuration error exits 1 with no requests; a dispatched workflow runs
to completion over the rows read from the path and the process then exits
0 (every per-item error is caught inside the workflow). -/
def runMain (jparse : String → Option String) (err : Nat → Bool)
    (apiKey : Option String) (args : List String) (rows : List Row) (s : St) :
    Nat × List Event :=
  match mainDispatch apiKey args with
  | MainOutcome.exitConfigError => (1, [])
  | MainOutcome.runImportCmd _ => (0, (importProperties jparse err rows s).2)
  | MainOutcome.runDeletePropertiesCmd _ => (0, (deletePropertiesFromCSV err rows s).2.2)
  | MainOutcome.runDeleteGroupsCmd _ => (0, (deleteGroupsFromCSV err rows s).2)

/-! ### Trace algebra -/

theorem countMut_append (a b : List Event) : countMut (a ++ b) = countMut a + countMut b := by
  simp [countMut, List.filter_append]

theorem createsFor_append (n : String) (a b : List Event) :
    createsFor n (a ++ b) = createsFor n a + createsFor n b := by
  simp [createsFor, List.filter_append]

theorem createsFor_eq_zero_of_no_create (n : String) (l : List Event)
    (h : ∀ e ∈ l, isCreateEvent e = false) : createsFor n l = 0 := by
  induction l with
  | nil => rfl
  | cons e es ih =>
      have he := h e (List.mem_cons_self e es)
      have hes := ih (fun x hx => h x (List.mem_cons_of_mem e hx))
      cases e <;> simp_all [createsFor, isCreateEvent]

/-! ### Shape of the per-property import step -/

theorem createGroupIfNotExists_events (err : Nat → Bool) (g : String) (s : St) :
    (createGroupIfNotExists err g s).2 = [Event.getGroups] ∨
    (createGroupIfNotExists err g s).2 = [Event.getGroups, Event.postGroup g] := by
  unfold createGroupIfNotExists doGetGroups doPostGroup
  by_cases h : err s.tick
  · simp [h]
  · simp [h]
    split <;> simp

theorem createGroupIfNotExists_props (err : Nat → Bool) (g : String) (s : St) :
    ((createGroupIfNotExists err g s).1).store.props = s.store.props := by
  unfold createGroupIfNotExists doGetGroups doPostGroup
  by_cases h : err s.tick <;> simp [h]
  split
  · rfl
  · by_cases h2 : err (s.tick + 1) <;> simp [h2]

theorem countMut_group_events (err : Nat → Bool) (g : String) (s : St) :
    countMut (createGroupIfNotExists err g s).2 = 0 := by
  rcases createGroupIfNotExists_events err g s with h | h <;>
    simp [h, countMut, isMutation]

theorem createsFor_group_events (err : Nat → Bool) (g n : String) (s : St) :
    createsFor n (createGroupIfNotExists err g s).2 = 0 := by
  rcases createGroupIfNotExists_events err g s with h | h <;>
    simp [h, createsFor]

theorem group_events_no_create (err : Nat → Bool) (g : String) (s : St) :
    ∀ e ∈ (createGroupIfNotExists err g s).2, isCreateEvent e = false := by
  rcases createGroupIfNotExists_events err g s with h | h <;>
    simp [h, isCreateEvent]

theorem mkPayload_name (jparse : String → Option String) (p : Property) (pl : Payload)
    (h : mkPayload jparse p = some pl) : pl.name = p.name := by
  unfold mkPayload at h
  split at h
  · injection h with h
    subst h
    rfl
  · split at h
    · injection h with h
      subst h
      rfl
    · rcases Option.map_eq_some'.mp h with ⟨v, _, hb⟩
      subst hb
      rfl

theorem createOrUpdateProperty_events (jparse : String → Option String)
    (err : Nat → Bool) (p : Property) (s : St) (pl : Payload)
    (h : mkPayload jparse p = some pl) :
    (createOrUpdateProperty jparse err p s).2.2 =
      [Event.getPropByName p.name,
       if ((getPropertyDetails err p.name s).1).isSome then Event.updateProp p.name pl
       else Event.createProp pl] := by
  rcases hd : getPropertyDetails err p.name s with ⟨existing, s1, c1⟩
  have hc : c1 = [Event.getPropByName p.name] := by
    have h2 := congrArg (fun t => t.2.2) hd
    simpa [getPropertyDetails] using h2.symm
  unfold createOrUpdateProperty
  rw [hd, h, hc]
  rcases existing with _ | d <;> simp [doUpdateProp, doCreateProp]

theorem createOrUpdateProperty_events_none (jparse : String → Option String)
    (err : Nat → Bool) (p : Property) (s : St)
    (h : mkPayload jparse p = none) :
    (createOrUpdateProperty jparse err p s).2.2 = [Event.getPropByName p.name] ∧
    (createOrUpdateProperty jparse err p s).1 = false ∧
    ((createOrUpdateProperty jparse err p s).2.1).store = s.store := by
  unfold createOrUpdateProperty getPropertyDetails
  simp [h]

theorem importProp_events_decomp (jparse : String → Option String) (err : Nat → Bool)
    (p : Property) (s : St) :
    (importProp jparse err p s).2 =
      (createGroupIfNotExists err p.groupName s).2 ++
        (createOrUpdateProperty jparse err p (createGroupIfNotExists err p.groupName s).1).2.2 := rfl

theorem importProp_shape (jparse : String → Option String) (err : Nat → Bool)
    (p : Property) (s : St) (hpl : (mkPayload jparse p).isSome = true) :
    countMut (importProp jparse err p s).2 = 1 ∧
    (importProp jparse err p s).2.head? = some Event.getGroups ∧
    ∃ pre m, (importProp jparse err p s).2 = pre ++ [m] ∧ isMutation m = true ∧
      countMut pre = 0 := by
  rcases Option.isSome_iff_exists.mp hpl with ⟨pl, hpl2⟩
  have hdec := importProp_events_decomp jparse err p s
  have hcou := createOrUpdateProperty_events jparse err p
    (createGroupIfNotExists err p.groupName s).1 pl hpl2
  set s1 := (createGroupIfNotExists err p.groupName s).1 with hs1
  set m := (if ((getPropertyDetails err p.name s1).1).isSome then Event.updateProp p.name pl
            else Event.createProp pl) with hm
  have hmut : isMutation m = true := by
    rw [hm]
    split <;> rfl
  have hgev := createGroupIfNotExists_events err p.groupName s
  refine ⟨?_, ?_, (createGroupIfNotExists err p.groupName s).2 ++ [Event.getPropByName p.name], m, ?_, hmut, ?_⟩
  · rw [hdec, hcou, countMut_append, countMut_group_events]
    cases hmut2 : m <;> simp_all [countMut, isMutation]
  · rw [hdec]
    rcases hgev with hg | hg <;> rw [hg] <;> rfl
  · rw [hdec, hcou, List.append_assoc]
    rfl
  · rw [countMut_append, countMut_group_events]
    rfl

theorem runImport_cons (jparse : String → Option String) (err : Nat → Bool)
    (p : Property) (ps : List Property) (s : St) :
    runImport jparse err (p :: ps) s =
      ((runImport jparse err ps (importProp jparse err p s).1).1,
       (importProp jparse err p s).2 ++
         (runImport jparse err ps (importProp jparse err p s).1).2) := rfl

theorem importSegments_cons (jparse : String → Option String) (err : Nat → Bool)
    (p : Property) (ps : List Property) (s : St) :
    importSegments jparse err (p :: ps) s =
      (importProp jparse err p s).2 ::
        importSegments jparse err ps (importProp jparse err p s).1 := rfl

theorem importProp_countMut (jparse : String → Option String) (err : Nat → Bool)
    (p : Property) (s : St) :
    countMut (importProp jparse err p s).2 =
      if (mkPayload jparse p).isSome then 1 else 0 := by
  by_cases hpl : (mkPayload jparse p).isSome
  · rw [if_pos hpl]
    exact (importProp_shape jparse err p s hpl).1
  · rw [if_neg hpl]
    have hnone : mkPayload jparse p = none := Option.not_isSome_iff_eq_none.mp hpl
    rw [importProp_events_decomp, countMut_append, countMut_group_events,
      (createOrUpdateProperty_events_none jparse err p _ hnone).1]
    rfl

theorem runImport_countMut (jparse : String → Option String) (err : Nat → Bool)
    (ps : List Property) (s : St) :
    countMut (runImport jparse err ps s).2 =
      (ps.filter (fun p => (mkPayload jparse p).isSome)).length := by
  induction ps generalizing s with
  | nil => rfl
  | cons p ps ih =>
      rw [runImport_cons]
      simp only [countMut_append, importProp_countMut, ih, List.filter_cons]
      by_cases hpl : (mkPayload jparse p).isSome <;> simp [hpl, Nat.add_comm]

theorem runImport_eq_flatten (jparse : String → Option String) (err : Nat → Bool)
    (ps : List Property) (s : St) :
    (runImport jparse err ps s).2 = (importSegments jparse err ps s).flatten := by
  induction ps generalizing s with
  | nil => rfl
  | cons p ps ih =>
      rw [runImport_cons, importSegments_cons]
      simp [ih]

theorem importSegments_length (jparse : String → Option String) (err : Nat → Bool)
    (ps : List Property) (s : St) :
    (importSegments jparse err ps s).length = ps.length := by
  induction ps generalizing s with
  | nil => rfl
  | cons p ps ih =>
      rw [importSegments_cons]
      simp [ih]

/-! ### Presence of a name in the remote property collection -/

theorem propPresent_congr_props (n : String) (st1 st2 : Store)
    (h : st1.props = st2.props) : propPresent n st1 = propPresent n st2 := by
  simp [propPresent, h]

theorem getPropertyDetails_noErr (n : String) (s : St) :
    (getPropertyDetails noErr n s).1 = s.store.props.find? (fun p => p.name == n) := by
  simp [getPropertyDetails, noErr]

theorem lookup_isSome_of_present (n : String) (s : St)
    (h : propPresent n s.store = true) :
    ((getPropertyDetails noErr n s).1).isSome = true := by
  rw [getPropertyDetails_noErr]
  rcases List.any_eq_true.mp h with ⟨q, hq, hqn⟩
  exact List.find?_isSome.mpr ⟨q, hq, hqn⟩

theorem lookup_none_of_absent (n : String) (s : St)
    (h : propPresent n s.store = false) :
    (getPropertyDetails noErr n s).1 = none := by
  rw [getPropertyDetails_noErr]
  refine List.find?_eq_none.mpr ?_
  intro q hq
  have h2 := List.any_eq_false.mp h q hq
  simpa using h2

theorem propPresent_map_update (n m : String) (pl : Payload) (props : List Property)
    (hplm : pl.name = m)
    (h : props.any (fun p => p.name == n) = true) :
    (props.map (fun q => if q.name == m then payloadToProperty pl else q)).any
      (fun p => p.name == n) = true := by
  rcases List.any_eq_true.mp h with ⟨q, hq, hqn⟩
  refine List.any_eq_true.mpr ⟨if q.name == m then payloadToProperty pl else q,
    List.mem_map.mpr ⟨q, hq, rfl⟩, ?_⟩
  by_cases hqp : q.name == m
  · have h1 : q.name = m := by simpa using hqp
    have h2 : q.name = n := by simpa using hqn
    simp [hqp, payloadToProperty, hplm, ← h1, h2]
  · simpa [hqp] using hqn

theorem propAbsent_map_update (n m : String) (pl : Payload) (props : List Property)
    (hplm : pl.name = m) (hne : m ≠ n)
    (h : props.any (fun p => p.name == n) = false) :
    (props.map (fun q => if q.name == m then payloadToProperty pl else q)).any
      (fun p => p.name == n) = false := by
  rw [List.any_eq_false]
  intro q hq
  rcases List.mem_map.mp hq with ⟨r, hr, hrq⟩
  have hrn := List.any_eq_false.mp h r hr
  subst hrq
  by_cases hrp : r.name == m
  · simp [hrp, payloadToProperty, hplm, hne]
  · simpa [hrp] using hrn

theorem cou_store_chars (jparse : String → Option String) (err : Nat → Bool)
    (p : Property) (s : St) :
    ((createOrUpdateProperty jparse err p s).2.1).store.props = s.store.props ∨
    (∃ pl, mkPayload jparse p = some pl ∧ pl.name = p.name ∧
      ((createOrUpdateProperty jparse err p s).2.1).store.props =
        s.store.props ++ [payloadToProperty pl]) ∨
    (∃ pl, mkPayload jparse p = some pl ∧ pl.name = p.name ∧
      ((createOrUpdateProperty jparse err p s).2.1).store.props =
        s.store.props.map
          (fun q => if q.name == p.name then payloadToProperty pl else q)) := by
  unfold createOrUpdateProperty getPropertyDetails doCreateProp doUpdateProp
  rcases hpl : mkPayload jparse p with _ | pl
  · left
    simp [hpl]
  · have hname := mkPayload_name jparse p pl hpl
    by_cases herr : err s.tick
    · by_cases herr2 : err (s.tick + 1)
      · left
        simp [hpl, herr, herr2]
      · right; left
        exact ⟨pl, rfl, hname, by simp [hpl, herr, herr2]⟩
    · rcases hfind : s.store.props.find? (fun q => q.name == p.name) with _ | d
      · by_cases herr2 : err (s.tick + 1)
        · left
          simp [hpl, herr, herr2, hfind]
        · right; left
          exact ⟨pl, rfl, hname, by simp [hpl, herr, herr2, hfind]⟩
      · by_cases herr2 : err (s.tick + 1)
        · left
          simp [hpl, herr, herr2, hfind]
        · right; right
          exact ⟨pl, rfl, hname, by simp [hpl, herr, herr2, hfind]⟩

theorem cou_present_mono (jparse : String → Option String) (err : Nat → Bool)
    (p : Property) (s : St) (n : String)
    (h : propPresent n s.store = true) :
    propPresent n ((createOrUpdateProperty jparse err p s).2.1).store = true := by
  rcases cou_store_chars jparse err p s with hc | ⟨pl, _, hname, hc⟩ | ⟨pl, _, hname, hc⟩ <;>
    simp only [propPresent] at h ⊢ <;> rw [hc]
  · exact h
  · simp [List.any_append, h]
  · exact propPresent_map_update n p.name pl s.store.props hname h

theorem cou_absent_preserved (jparse : String → Option String) (err : Nat → Bool)
    (p : Property) (s : St) (n : String) (hne : p.name ≠ n)
    (h : propPresent n s.store = false) :
    propPresent n ((createOrUpdateProperty jparse err p s).2.1).store = false := by
  rcases cou_store_chars jparse err p s with hc | ⟨pl, _, hname, hc⟩ | ⟨pl, _, hname, hc⟩ <;>
    simp only [propPresent] at h ⊢ <;> rw [hc]
  · exact h
  · simp [List.any_append, h, payloadToProperty, hname, hne]
  · exact propAbsent_map_update n p.name pl s.store.props hname hne h

theorem cou_store_create_of_absent (jparse : String → Option String)
    (p : Property) (s : St) (pl : Payload) (hpl : mkPayload jparse p = some pl)
    (habs : propPresent p.name s.store = false) :
    ((createOrUpdateProperty jparse noErr p s).2.1).store.props =
      s.store.props ++ [payloadToProperty pl] := by
  have hfind : s.store.props.find? (fun q => q.name == p.name) = none := by
    have h2 := lookup_none_of_absent p.name s habs
    rwa [getPropertyDetails_noErr] at h2
  unfold createOrUpdateProperty getPropertyDetails doCreateProp
  simp [hpl, noErr, hfind]

theorem cou_makes_present (jparse : String → Option String) (p : Property) (s : St)
    (pl : Payload) (hpl : mkPayload jparse p = some pl) :
    propPresent p.name ((createOrUpdateProperty jparse noErr p s).2.1).store = true := by
  by_cases h : propPresent p.name s.store
  · exact cou_present_mono jparse noErr p s p.name h
  · have habs : propPresent p.name s.store = false := by simpa using h
    have hst := cou_store_create_of_absent jparse p s pl hpl habs
    have hname := mkPayload_name jparse p pl hpl
    simp only [propPresent] at h ⊢
    rw [hst]
    simp [List.any_append, payloadToProperty, hname]

theorem importSegments_shape (jparse : String → Option String) (err : Nat → Bool)
    (ps : List Property) (s : St)
    (hOpts : ∀ p ∈ ps, (mkPayload jparse p).isSome = true) :
    ∀ seg ∈ importSegments jparse err ps s,
      countMut seg = 1 ∧ seg.head? = some Event.getGroups ∧
      ∃ pre m, seg = pre ++ [m] ∧ isMutation m = true ∧ countMut pre = 0 := by
  induction ps generalizing s with
  | nil => intro seg hseg; simp [importSegments] at hseg
  | cons p ps ih =>
      intro seg hseg
      rw [importSegments_cons] at hseg
      rcases List.mem_cons.mp hseg with hhd | htl
      · subst hhd
        exact importProp_shape jparse err p s (hOpts p (List.mem_cons_self p ps))
      · exact ih (importProp jparse err p s).1
          (fun q hq => hOpts q (List.mem_cons_of_mem p hq)) seg htl

/-! ### Behaviour of the import loop on the remote store -/

theorem cgine_present (err : Nat → Bool) (g : String) (s : St) (n : String) :
    propPresent n ((createGroupIfNotExists err g s).1).store = propPresent n s.store :=
  propPresent_congr_props n _ _ (createGroupIfNotExists_props err g s)

theorem importProp_fst (jparse : String → Option String) (err : Nat → Bool)
    (p : Property) (s : St) :
    (importProp jparse err p s).1 =
      (createOrUpdateProperty jparse err p (createGroupIfNotExists err p.groupName s).1).2.1 := rfl

theorem importProp_present_mono (jparse : String → Option String) (err : Nat → Bool)
    (p : Property) (s : St) (n : String)
    (h : propPresent n s.store = true) :
    propPresent n ((importProp jparse err p s).1).store = true := by
  rw [importProp_fst]
  refine cou_present_mono jparse err p _ n ?_
  rw [cgine_present]
  exact h

theorem importProp_absent_preserved (jparse : String → Option String) (err : Nat → Bool)
    (p : Property) (s : St) (n : String) (hne : p.name ≠ n)
    (h : propPresent n s.store = false) :
    propPresent n ((importProp jparse err p s).1).store = false := by
  rw [importProp_fst]
  refine cou_absent_preserved jparse err p _ n hne ?_
  rw [cgine_present]
  exact h

theorem importProp_makes_present (jparse : String → Option String)
    (p : Property) (s : St) (pl : Payload) (hpl : mkPayload jparse p = some pl) :
    propPresent p.name ((importProp jparse noErr p s).1).store = true := by
  rw [importProp_fst]
  exact cou_makes_present jparse p _ pl hpl

theorem importProp_props_payload_none (jparse : String → Option String)
    (err : Nat → Bool) (p : Property) (s : St) (h : mkPayload jparse p = none) :
    ((importProp jparse err p s).1).store.props = s.store.props := by
  rw [importProp_fst,
    (createOrUpdateProperty_events_none jparse err p _ h).2.2,
    createGroupIfNotExists_props]

theorem cou_createsFor_ne (jparse : String → Option String) (err : Nat → Bool)
    (p : Property) (s : St) (n : String) (hne : p.name ≠ n) :
    createsFor n (createOrUpdateProperty jparse err p s).2.2 = 0 := by
  rcases hpl : mkPayload jparse p with _ | pl
  · rw [(createOrUpdateProperty_events_none jparse err p s hpl).1]
    rfl
  · rw [createOrUpdateProperty_events jparse err p s pl hpl]
    have hname := mkPayload_name jparse p pl hpl
    by_cases hex : ((getPropertyDetails err p.name s).1).isSome <;>
      simp [hex, createsFor, hname, hne]

theorem cou_no_create_of_found (jparse : String → Option String) (err : Nat → Bool)
    (p : Property) (s : St)
    (hex : ((getPropertyDetails err p.name s).1).isSome = true) :
    ∀ e ∈ (createOrUpdateProperty jparse err p s).2.2, isCreateEvent e = false := by
  rcases hpl : mkPayload jparse p with _ | pl
  · rw [(createOrUpdateProperty_events_none jparse err p s hpl).1]
    simp [isCreateEvent]
  · rw [createOrUpdateProperty_events jparse err p s pl hpl]
    simp [hex, isCreateEvent]

theorem importProp_createsFor_ne (jparse : String → Option String) (err : Nat → Bool)
    (p : Property) (s : St) (n : String) (hne : p.name ≠ n) :
    createsFor n (importProp jparse err p s).2 = 0 := by
  rw [importProp_events_decomp, createsFor_append, createsFor_group_events,
    cou_createsFor_ne jparse err p _ n hne]

theorem importProp_createsFor_payload_none (jparse : String → Option String)
    (err : Nat → Bool) (p : Property) (s : St) (n : String)
    (h : mkPayload jparse p = none) :
    createsFor n (importProp jparse err p s).2 = 0 := by
  rw [importProp_events_decomp, createsFor_append, createsFor_group_events,
    (createOrUpdateProperty_events_none jparse err p _ h).1]
  rfl

theorem importProp_no_create_of_present (jparse : String → Option String)
    (p : Property) (s : St) (h : propPresent p.name s.store = true) :
    ∀ e ∈ (importProp jparse noErr p s).2, isCreateEvent e = false := by
  rw [importProp_events_decomp]
  intro e he
  rcases List.mem_append.mp he with hg | hc
  · exact group_events_no_create noErr p.groupName s e hg
  · refine cou_no_create_of_found jparse noErr p _ ?_ e hc
    refine lookup_isSome_of_present p.name _ ?_
    rw [cgine_present]
    exact h

theorem importProp_createsFor_le_one (jparse : String → Option String)
    (err : Nat → Bool) (p : Property) (s : St) (n : String) :
    createsFor n (importProp jparse err p s).2 ≤ 1 := by
  rw [importProp_events_decomp, createsFor_append, createsFor_group_events]
  rcases hpl : mkPayload jparse p with _ | pl
  · rw [(createOrUpdateProperty_events_none jparse err p _ hpl).1]
    simp [createsFor]
  · rw [createOrUpdateProperty_events jparse err p _ pl hpl]
    by_cases hex : ((getPropertyDetails err p.name
        (createGroupIfNotExists err p.groupName s).1).1).isSome
    · simp [hex, createsFor]
    · simp only [hex, createsFor, List.filter, Bool.false_eq_true, if_false]
      by_cases hn : (pl.name == n) <;> simp [hn]

theorem runImport_present_mono (jparse : String → Option String) (err : Nat → Bool)
    (ps : List Property) (s : St) (n : String)
    (h : propPresent n s.store = true) :
    propPresent n ((runImport jparse err ps s).1).store = true := by
  induction ps generalizing s with
  | nil => exact h
  | cons p ps ih =>
      rw [runImport_cons]
      exact ih _ (importProp_present_mono jparse err p s n h)

theorem runImport_no_create_of_all_present (jparse : String → Option String)
    (ps : List Property) (s : St)
    (h : ∀ p ∈ ps, propPresent p.name s.store = true) :
    ∀ e ∈ (runImport jparse noErr ps s).2, isCreateEvent e = false := by
  induction ps generalizing s with
  | nil => intro e he; simp [runImport] at he
  | cons p ps ih =>
      rw [runImport_cons]
      intro e he
      rcases List.mem_append.mp he with hh | ht
      · exact importProp_no_create_of_present jparse p s
          (h p (List.mem_cons_self p ps)) e hh
      · refine ih _ ?_ e ht
        intro q hq
        exact importProp_present_mono jparse noErr p s q.name
          (h q (List.mem_cons_of_mem p hq))

theorem runImport_createsFor_zero_of_present (jparse : String → Option String)
    (ps : List Property) (s : St) (n : String)
    (h : propPresent n s.store = true) :
    createsFor n (runImport jparse noErr ps s).2 = 0 := by
  induction ps generalizing s with
  | nil => rfl
  | cons p ps ih =>
      rw [runImport_cons]
      simp only [createsFor_append]
      have hhd : createsFor n (importProp jparse noErr p s).2 = 0 := by
        by_cases hpn : p.name = n
        · refine createsFor_eq_zero_of_no_create n _ ?_
          exact importProp_no_create_of_present jparse p s (hpn ▸ h)
        · exact importProp_createsFor_ne jparse noErr p s n hpn
      rw [hhd, ih _ (importProp_present_mono jparse noErr p s n h)]

theorem runImport_makes_present (jparse : String → Option String)
    (ps : List Property) (s : St)
    (hOpts : ∀ p ∈ ps, (mkPayload jparse p).isSome = true) :
    ∀ p ∈ ps, propPresent p.name ((runImport jparse noErr ps s).1).store = true := by
  induction ps generalizing s with
  | nil => intro p hp; simp at hp
  | cons q ps ih =>
      intro p hp
      rw [runImport_cons]
      rcases List.mem_cons.mp hp with hh | ht
      · subst hh
        rcases Option.isSome_iff_exists.mp (hOpts p (List.mem_cons_self p ps)) with ⟨pl, hpl⟩
        exact runImport_present_mono jparse noErr ps _ p.name
          (importProp_makes_present jparse p s pl hpl)
      · exact ih _ (fun r hr => hOpts r (List.mem_cons_of_mem q hr)) p ht

theorem runImport_createsFor_le_one (jparse : String → Option String)
    (ps : List Property) (s : St) (n : String) :
    createsFor n (runImport jparse noErr ps s).2 ≤ 1 := by
  induction ps generalizing s with
  | nil => simp [runImport, createsFor]
  | cons p ps ih =>
      by_cases hpres : propPresent n s.store
      · rw [runImport_createsFor_zero_of_present jparse (p :: ps) s n hpres]
        exact Nat.zero_le 1
      · have habs : propPresent n s.store = false := by simpa using hpres
        rw [runImport_cons]
        simp only [createsFor_append]
        by_cases hpn : p.name = n
        · rcases hpl : mkPayload jparse p with _ | pl
          · rw [importProp_createsFor_payload_none jparse noErr p s n hpl]
            have habs1 : propPresent n ((importProp jparse noErr p s).1).store = false := by
              rw [propPresent_congr_props n _ s.store
                (importProp_props_payload_none jparse noErr p s hpl)]
              exact habs
            simpa using ih (importProp jparse noErr p s).1
          · have hpres1 : propPresent n ((importProp jparse noErr p s).1).store = true := by
              rw [← hpn]
              exact importProp_makes_present jparse p s pl hpl
            rw [runImport_createsFor_zero_of_present jparse ps _ n hpres1]
            simpa using importProp_createsFor_le_one jparse noErr p s n
        · rw [importProp_createsFor_ne jparse noErr p s n hpn]
          have habs1 := importProp_absent_preserved jparse noErr p s n hpn habs
          simpa using ih (importProp jparse noErr p s).1

/-! ### Normalized payload fields -/

/-- What `prop.options ? JSON.parse(prop.options) : undefined` evaluates
to when it does not throw: the deserialized options, or `undefined` for a
missing/empty serialized value. -/
def deserializeOptions (jparse : String → Option String) : Option String → Option String
  | none => none
  | some s => if s = "" then none else jparse s

theorem mkPayload_fields (jparse : String → Option String) (p : Property)
    (pl : Payload) (h : mkPayload jparse p = some pl) :
    pl = basePayload p (deserializeOptions jparse p.options) := by
  unfold mkPayload at h
  unfold deserializeOptions
  rcases hopt : p.options with _ | s <;> rw [hopt] at h <;> simp only [] at h
  · injection h with h
    subst h
    rfl
  · by_cases hs : s = ""
    · rw [if_pos hs] at h
      injection h with h
      subst h
      simp [hs]
    · rw [if_neg hs] at h
      rcases Option.map_eq_some'.mp h with ⟨v, hv, hb⟩
      subst hb
      simp [hs, hv]

/-! ### Concrete data for the closed demonstrations -/

/-- Deserializer used in the closed demonstrations: `JSON.parse` succeeds
on the well-formed demo strings and throws exactly on the string oops
(which is not valid JSON). -/
def demoParse : String → Option String := fun s => if s = "oops" then none else some s

/-- Failure schedule of the closed demonstrations of transient errors:
exactly the first request of the run throws. -/
def errFirst : Nat → Bool := fun n => n == 0

/-- Initial run state: empty remote store, no request issued yet. -/
def st0 : St := { store := { groups := [], props := [] }, tick := 0 }

/-- A non-built-in CSV row whose serialized options value is malformed. -/
def badOptionsRow : Row :=
  { internalName := "p1", displayName := "P one", type := "string",
    description := "d", groupName := "g1", formField := "true", options := "oops",
    readOnlyValue := "false", calculated := "false", externalOptions := "false",
    deleted := "false", hubspotDefined := "false" }

/-- A non-built-in CSV row with a well-formed options value. -/
def goodRow : Row :=
  { internalName := "p2", displayName := "P two", type := "enumeration",
    description := "d", groupName := "g1", formField := "false", options := "vals",
    readOnlyValue := "false", calculated := "false", externalOptions := "false",
    deleted := "false", hubspotDefined := "false" }

/-- The normalized property of `badOptionsRow`. -/
def badProp : Property :=
  { name := "p1", label := "P one", type := "string", description := "d",
    groupName := "g1", fieldType := "text", options := some "oops",
    readOnly := false, calculated := false, externalOptions := false,
    deleted := false, hubspotDefined := false }

/-- A normalized property with no options, used where an entity is already
present remotely. -/
def propX : Property :=
  { name := "x", label := "X", type := "string", description := "d",
    groupName := "g1", fieldType := "text", options := none,
    readOnly := false, calculated := false, externalOptions := false,
    deleted := false, hubspotDefined := false }

/-- A run state whose remote store already holds `propX`. -/
def stX : St := { store := { groups := ["g1"], props := [propX] }, tick := 0 }

/-! ### Claim theorems: Reconciler -/

/-- C1 (counterexample): the claim says every non-built-in row gets
exactly one create-or-update request.  For the concrete non-built-in row
`badOptionsRow`, whose serialized options value makes `JSON.parse` throw,
the import run issues zero create-or-update requests for the row, so the
claim as stated is false. -/
theorem reconciler_malformed_row_zero_mutations :
    countMut (importProperties demoParse noErr [badOptionsRow] st0).2 = 0 ∧
    badOptionsRow.hubspotDefined ≠ "true" := by
  constructor
  · rfl
  · decide

/-- What one parsed row's trace segment looks like, depending on that
row's own options value: when the payload builds, the segment holds
exactly one create-or-update request, placed last, and opens with the
grouping-existence check; when the payload construction throws, the
segment holds zero create-or-update requests and is exactly the group
check followed by the name lookup. -/
def rowSegmentSpec (jparse : String → Option String) (p : Property)
    (seg : List Event) : Prop :=
  ((mkPayload jparse p).isSome = true →
    countMut seg = 1 ∧ seg.head? = some Event.getGroups ∧
    ∃ pre m, seg = pre ++ [m] ∧ isMutation m = true ∧ countMut pre = 0) ∧
  (mkPayload jparse p = none →
    countMut seg = 0 ∧
    ∃ gev, (gev = [Event.getGroups] ∨
        gev = [Event.getGroups, Event.postGroup p.groupName]) ∧
      seg = gev ++ [Event.getPropByName p.name])

theorem importProp_shape_payload_none (jparse : String → Option String)
    (err : Nat → Bool) (p : Property) (s : St) (h : mkPayload jparse p = none) :
    countMut (importProp jparse err p s).2 = 0 ∧
    ∃ gev, (gev = [Event.getGroups] ∨
        gev = [Event.getGroups, Event.postGroup p.groupName]) ∧
      (importProp jparse err p s).2 = gev ++ [Event.getPropByName p.name] := by
  have hdec := importProp_events_decomp jparse err p s
  have hev := (createOrUpdateProperty_events_none jparse err p
    (createGroupIfNotExists err p.groupName s).1 h).1
  refine ⟨?_, (createGroupIfNotExists err p.groupName s).2,
    createGroupIfNotExists_events err p.groupName s, ?_⟩
  · rw [hdec, countMut_append, countMut_group_events, hev]
    rfl
  · rw [hdec, hev]

theorem importSegments_spec (jparse : String → Option String) (err : Nat → Bool)
    (ps : List Property) (s : St) :
    List.Forall₂ (rowSegmentSpec jparse) ps (importSegments jparse err ps s) := by
  induction ps generalizing s with
  | nil => exact List.Forall₂.nil
  | cons p ps ih =>
      rw [importSegments_cons]
      refine List.Forall₂.cons ⟨?_, ?_⟩ (ih (importProp jparse err p s).1)
      · intro hs
        exact importProp_shape jparse err p s hs
      · intro hn
        exact importProp_shape_payload_none jparse err p s hn

/-- C1 (amended): for every input — also one mixing well-formed and
malformed rows — the import trace is the concatenation, in input order,
of one segment per non-built-in row, and row by row
(`List.Forall₂ (rowSegmentSpec jparse)` pairs the i-th parsed row with
the i-th segment): a row whose options value (when truthy) deserializes
gets exactly one create-or-update request, placed last in its segment,
after the grouping-existence check that opens the segment; a row with
malformed options gets zero create-or-update requests, its segment being
exactly the group check followed by the name lookup.  Built-in rows
(Hubspot defined equal to the string true) are not parsed at all and so
contribute no segment and no remote call. -/
theorem reconciler_one_mutation_per_row (jparse : String → Option String)
    (err : Nat → Bool) (rows : List Row) (s : St) :
    ((importProperties jparse err rows s).2 =
      (importSegments jparse err (rows.filterMap parseRow) s).flatten) ∧
    ((importSegments jparse err (rows.filterMap parseRow) s).length =
      (rows.filterMap parseRow).length) ∧
    List.Forall₂ (rowSegmentSpec jparse) (rows.filterMap parseRow)
      (importSegments jparse err (rows.filterMap parseRow) s) ∧
    (∀ r ∈ rows, r.hubspotDefined = "true" → parseRow r = none) := by
  refine ⟨runImport_eq_flatten jparse err (rows.filterMap parseRow) s,
    importSegments_length jparse err (rows.filterMap parseRow) s,
    importSegments_spec jparse err (rows.filterMap parseRow) s, ?_⟩
  intro r hr hb
  simp [parseRow, hb]

/-- C1 (witness): the amended theorem applied to a mixed input — a
malformed-options row followed by a well-formed one. -/
theorem reconciler_one_mutation_per_row_witness :
    (importProperties demoParse noErr [badOptionsRow, goodRow] st0).2 =
      (importSegments demoParse noErr
        ([badOptionsRow, goodRow].filterMap parseRow) st0).flatten :=
  (reconciler_one_mutation_per_row demoParse noErr [badOptionsRow, goodRow] st0).1

/-- C2: when the payload construction succeeds, `createOrUpdateProperty`
issues the create request (POST to the collection) exactly when the
lookup by name returned absent, and the update request (PUT addressed by
the property's name) otherwise; both paths transmit one and the same
payload, whose fields are exactly the entity's name, label, description,
groupName, type and fieldType, the derived formField flag (fieldType
equal to text) and the deserialized options — a full replace. -/
theorem createOrUpdate_full_replace (jparse : String → Option String)
    (err : Nat → Bool) (p : Property) (s : St) (pl : Payload)
    (hpl : mkPayload jparse p = some pl) :
    ((createOrUpdateProperty jparse err p s).2.2 =
      [Event.getPropByName p.name,
       if ((getPropertyDetails err p.name s).1).isSome then Event.updateProp p.name pl
       else Event.createProp pl]) ∧
    pl.name = p.name ∧ pl.label = p.label ∧ pl.description = p.description ∧
    pl.groupName = p.groupName ∧ pl.type = p.type ∧ pl.fieldType = p.fieldType ∧
    pl.formField = (p.fieldType == "text") ∧
    pl.options = deserializeOptions jparse p.options := by
  refine ⟨createOrUpdateProperty_events jparse err p s pl hpl, ?_⟩
  have hf := mkPayload_fields jparse p pl hpl
  rw [hf]
  simp [basePayload]

/-- C2 (witness): the theorem applied to `propX` over the empty store,
where the lookup misses and the create path is taken. -/
theorem createOrUpdate_full_replace_witness :
    (createOrUpdateProperty demoParse noErr propX st0).2.2 =
      [Event.getPropByName propX.name,
       if ((getPropertyDetails noErr propX.name st0).1).isSome
       then Event.updateProp propX.name (basePayload propX none)
       else Event.createProp (basePayload propX none)] :=
  (createOrUpdate_full_replace demoParse noErr propX st0 (basePayload propX none)
    (by decide)).1

/-- C3: under a transport without failures, after one import run every
parsed property's name is present remotely; a second run of the same
input therefore issues no create request at all (every row resolves to an
update), and across both runs at most one create request is ever issued
per name — this also covers duplicate names within a single input, which
resolve to one create followed by updates. -/
theorem reconciler_idempotent (jparse : String → Option String)
    (rows : List Row) (s : St)
    (hOpts : ∀ p ∈ rows.filterMap parseRow, (mkPayload jparse p).isSome = true) :
    (∀ p ∈ rows.filterMap parseRow,
      propPresent p.name ((importProperties jparse noErr rows s).1).store = true) ∧
    (∀ e ∈ (importProperties jparse noErr rows
        ((importProperties jparse noErr rows s).1)).2, isCreateEvent e = false) ∧
    (∀ n, createsFor n ((importProperties jparse noErr rows s).2 ++
      (importProperties jparse noErr rows
        ((importProperties jparse noErr rows s).1)).2) ≤ 1) := by
  have h1 := runImport_makes_present jparse (rows.filterMap parseRow) s hOpts
  refine ⟨h1, ?_, ?_⟩
  · exact runImport_no_create_of_all_present jparse (rows.filterMap parseRow) _ h1
  · intro n
    rw [createsFor_append]
    have h2 : createsFor n (importProperties jparse noErr rows
        ((importProperties jparse noErr rows s).1)).2 = 0 :=
      createsFor_eq_zero_of_no_create n _
        (runImport_no_create_of_all_present jparse (rows.filterMap parseRow) _ h1)
    rw [h2]
    simpa using runImport_createsFor_le_one jparse (rows.filterMap parseRow) s n

/-- C3 (witness): across two consecutive runs of the one-row demo input,
at most one create request is issued for the row's name. -/
theorem reconciler_idempotent_witness :
    createsFor "p2" ((importProperties demoParse noErr [goodRow] st0).2 ++
      (importProperties demoParse noErr [goodRow]
        ((importProperties demoParse noErr [goodRow] st0).1)).2) ≤ 1 :=
  (reconciler_idempotent demoParse [goodRow] st0 (by decide)).2.2 "p2"

/-- C6 (counterexample): the claim says no request is sent for a row with
malformed options.  For the concrete property `badProp` (whose options
string makes `JSON.parse` throw), `createOrUpdateProperty` does return
`false`, but its request trace is the nonempty list holding the name
lookup, so a request is sent for the row and the claim as stated is
false. -/
theorem malformed_options_lookup_still_sent :
    (createOrUpdateProperty demoParse noErr badProp st0).1 = false ∧
    (createOrUpdateProperty demoParse noErr badProp st0).2.2 =
      [Event.getPropByName "p1"] := by
  constructor
  · rfl
  · rfl

/-- C6 (amended): when the options value of a row is malformed
(deserialization throws), that item alone fails: `createOrUpdateProperty`
returns `false` rather than raising, its only request is the name lookup
— no create-or-update request is issued for the row — and every
subsequent row of the batch is still processed (each later row with
well-formed options still gets its one create-or-update request). -/
theorem malformed_options_fails_single_item (jparse : String → Option String)
    (err : Nat → Bool) (p : Property) (s : St) (ps : List Property)
    (hpl : mkPayload jparse p = none) :
    (createOrUpdateProperty jparse err p s).1 = false ∧
    (createOrUpdateProperty jparse err p s).2.2 = [Event.getPropByName p.name] ∧
    countMut (runImport jparse err (p :: ps) s).2 =
      (ps.filter (fun q => (mkPayload jparse q).isSome)).length := by
  obtain ⟨hev, hfalse, _⟩ := createOrUpdateProperty_events_none jparse err p s hpl
  refine ⟨hfalse, hev, ?_⟩
  rw [runImport_countMut]
  simp [List.filter_cons, hpl]

/-- C6 (witness): the amended theorem applied to `badProp` followed by the
well-formed `propX`. -/
theorem malformed_options_fails_single_item_witness :
    countMut (runImport demoParse noErr (badProp :: [propX]) st0).2 =
      ([propX].filter (fun q => (mkPayload demoParse q).isSome)).length :=
  (malformed_options_fails_single_item demoParse noErr badProp st0 [propX]
    (by decide)).2.2

/-- C7 (counterexample): the claim says the lookup returns null exactly
when the entity is not found, so that a transient error cannot select the
create path.  Concretely, with `propX` present remotely and the first
request of the run failing, `getPropertyDetails` returns null anyway and
`createOrUpdateProperty` issues a create for the already-present entity:
the claim as stated is false. -/
theorem lookup_error_masquerades_as_notfound :
    propPresent "x" stX.store = true ∧
    (getPropertyDetails errFirst "x" stX).1 = none ∧
    (createOrUpdateProperty demoParse errFirst propX stX).2.2 =
      [Event.getPropByName "x", Event.createProp (basePayload propX none)] := by
  refine ⟨by rfl, by rfl, by rfl⟩

/-- C7 (amended): `getPropertyDetails` catches every request failure and
returns null for all of them, so null does not distinguish not-found from
other remote errors; consequently, whenever the lookup request fails —
whatever the remote store holds — the Reconciler selects the create
path. -/
theorem lookup_error_selects_create (jparse : String → Option String)
    (err : Nat → Bool) (p : Property) (s : St) (pl : Payload)
    (herr : err s.tick = true) (hpl : mkPayload jparse p = some pl) :
    (getPropertyDetails err p.name s).1 = none ∧
    (createOrUpdateProperty jparse err p s).2.2 =
      [Event.getPropByName p.name, Event.createProp pl] := by
  have hnone : (getPropertyDetails err p.name s).1 = none := by
    simp [getPropertyDetails, herr]
  refine ⟨hnone, ?_⟩
  rw [createOrUpdateProperty_events jparse err p s pl hpl, hnone]
  rfl

/-- C7 (witness): the amended theorem applied to `propX` over the store
already holding it, with the first request failing. -/
theorem lookup_error_selects_create_witness :
    (getPropertyDetails errFirst propX.name stX).1 = none ∧
    (createOrUpdateProperty demoParse errFirst propX stX).2.2 =
      [Event.getPropByName propX.name, Event.createProp (basePayload propX none)] :=
  lookup_error_selects_create demoParse errFirst propX stX (basePayload propX none)
    (by decide) (by decide)

/-! ### Batch deleter lemmas -/

/-- The per-name protection condition of the batch deleter at a given
state: the detail fetch returns null (it failed, or the entity is gone)
or the fetched entity is read-only. -/
def protectedAt (err : Nat → Bool) (n : String) (s : St) : Bool :=
  match (getPropertyDetails err n s).1 with
  | none => true
  | some d => d.readOnly

theorem deleteOne_not_found (err : Nat → Bool) (snapshot : List Property)
    (n : String) (s : St) (h : snapshot.any (fun p => p.name == n) = false) :
    deleteOne err snapshot n s = ([], s, []) := by
  unfold deleteOne
  simp [h]

theorem deleteOne_protected (err : Nat → Bool) (snapshot : List Property)
    (n : String) (s : St) (hin : snapshot.any (fun p => p.name == n) = true)
    (hprot : protectedAt err n s = true) :
    (deleteOne err snapshot n s).1 = [n] ∧
    (deleteOne err snapshot n s).2.2 = [Event.getPropByName n, Event.pause] := by
  unfold protectedAt at hprot
  unfold deleteOne
  rcases hd : (getPropertyDetails err n s).1 with _ | d
  · simp [hin, hd, getPropertyDetails]
  · rw [hd] at hprot
    simp only [] at hprot
    simp [hin, hd, hprot, getPropertyDetails]

theorem deleteOne_fails_sub (err : Nat → Bool) (snapshot : List Property)
    (n : String) (s : St) :
    ∀ m ∈ (deleteOne err snapshot n s).1, m = n := by
  intro m hm
  unfold deleteOne at hm
  by_cases hin : snapshot.any (fun p => p.name == n)
  · rcases hd : (getPropertyDetails err n s).1 with _ | d
    · simp [hin, hd] at hm
      exact hm
    · by_cases hro : d.readOnly
      · simp [hin, hd, hro] at hm
        exact hm
      · by_cases hdel : (deleteProperty err n (getPropertyDetails err n s).2.1).1
        · simp [hin, hd, hro, hdel] at hm
        · simp [hin, hd, hro, hdel] at hm
          exact hm
  · simp [hin] at hm

theorem deleteOne_events_sub (err : Nat → Bool) (snapshot : List Property)
    (n : String) (s : St) :
    ∀ e ∈ (deleteOne err snapshot n s).2.2,
      e = Event.getPropByName n ∨ e = Event.deleteProp n ∨ e = Event.pause := by
  intro e he
  unfold deleteOne at he
  by_cases hin : snapshot.any (fun p => p.name == n)
  · rw [if_pos hin] at he
    rcases hd : (getPropertyDetails err n s).1 with _ | d <;> rw [hd] at he
    · simp [getPropertyDetails] at he
      tauto
    · by_cases hro : d.readOnly
      · simp [hro, getPropertyDetails] at he
        tauto
      · simp [hro, getPropertyDetails, deleteProperty] at he
        tauto
  · simp [hin] at he

theorem runDeletions_cons (err : Nat → Bool) (snapshot : List Property)
    (n : String) (ns : List String) (s : St) :
    runDeletions err snapshot (n :: ns) s =
      ((deleteOne err snapshot n s).1 ++
         (runDeletions err snapshot ns (deleteOne err snapshot n s).2.1).1,
       (runDeletions err snapshot ns (deleteOne err snapshot n s).2.1).2.1,
       (deleteOne err snapshot n s).2.2 ++
         (runDeletions err snapshot ns (deleteOne err snapshot n s).2.1).2.2) := rfl

theorem runDeletions_fails_sub (err : Nat → Bool) (snapshot : List Property)
    (ts : List String) (s : St) :
    ∀ m ∈ (runDeletions err snapshot ts s).1, m ∈ ts := by
  induction ts generalizing s with
  | nil => intro m hm; simp [runDeletions] at hm
  | cons n ns ih =>
      intro m hm
      rw [runDeletions_cons] at hm
      rcases List.mem_append.mp hm with hh | ht
      · exact List.mem_cons.mpr (Or.inl (deleteOne_fails_sub err snapshot n s m hh))
      · exact List.mem_cons.mpr (Or.inr (ih _ m ht))

theorem runDeletions_no_touch_of_not_mem (err : Nat → Bool) (snapshot : List Property)
    (ts : List String) (s : St) (n : String) (hnot : n ∉ ts) :
    ∀ e ∈ (runDeletions err snapshot ts s).2.2,
      e ≠ Event.deleteProp n ∧ e ≠ Event.getPropByName n := by
  induction ts generalizing s with
  | nil => intro e he; simp [runDeletions] at he
  | cons k ks ih =>
      intro e he
      have hkn : k ≠ n := fun h => hnot (h ▸ List.mem_cons_self k ks)
      have hns : n ∉ ks := fun h => hnot (List.mem_cons_of_mem k h)
      rw [runDeletions_cons] at he
      rcases List.mem_append.mp he with hh | ht
      · rcases deleteOne_events_sub err snapshot k s e hh with h1 | h1 | h1 <;>
          subst h1 <;> simp [hkn]
      · exact ih _ hns e ht

theorem runDeletions_append (err : Nat → Bool) (snapshot : List Property)
    (t1 t2 : List String) (s : St) :
    runDeletions err snapshot (t1 ++ t2) s =
      ((runDeletions err snapshot t1 s).1 ++
         (runDeletions err snapshot t2 (runDeletions err snapshot t1 s).2.1).1,
       (runDeletions err snapshot t2 (runDeletions err snapshot t1 s).2.1).2.1,
       (runDeletions err snapshot t1 s).2.2 ++
         (runDeletions err snapshot t2 (runDeletions err snapshot t1 s).2.1).2.2) := by
  induction t1 generalizing s with
  | nil => simp [runDeletions]
  | cons k ks ih =>
      rw [List.cons_append, runDeletions_cons, ih, runDeletions_cons]
      simp [List.append_assoc]

theorem runDeletions_empty_snapshot (err : Nat → Bool) (ts : List String) (s : St) :
    runDeletions err [] ts s = ([], s, []) := by
  induction ts generalizing s with
  | nil => rfl
  | cons k ks ih =>
      rw [runDeletions_cons, deleteOne_not_found err [] k s (by simp)]
      simp [ih]

/-! ### First-occurrence deduplication -/

theorem mem_foldl_insertUnique (l acc : List String) (x : String) :
    x ∈ l.foldl insertUnique acc ↔ x ∈ acc ∨ x ∈ l := by
  induction l generalizing acc with
  | nil => simp
  | cons y ys ih =>
      rw [List.foldl_cons, ih]
      unfold insertUnique
      by_cases hy : acc.contains y
      · have hy2 : y ∈ acc := List.elem_iff.mp hy
        rw [if_pos hy]
        simp only [List.mem_cons]
        constructor
        · tauto
        · rintro (h | h | h) <;> try tauto
          subst h
          tauto
      · rw [if_neg hy]
        simp only [List.mem_append, List.mem_singleton, List.mem_cons]
        tauto

theorem nodup_foldl_insertUnique (l acc : List String) (h : acc.Nodup) :
    (l.foldl insertUnique acc).Nodup := by
  induction l generalizing acc with
  | nil => exact h
  | cons y ys ih =>
      rw [List.foldl_cons]
      refine ih _ ?_
      unfold insertUnique
      by_cases hy : acc.contains y
      · rwa [if_pos hy]
      · rw [if_neg hy]
        have hnm : y ∉ acc := fun hm => hy (List.elem_iff.mpr hm)
        rw [List.nodup_append]
        refine ⟨h, List.nodup_singleton y, ?_⟩
        intro a ha hsing
        rw [List.mem_singleton] at hsing
        exact hnm (hsing ▸ ha)

theorem dedupFirst_nodup (l : List String) : (dedupFirst l).Nodup :=
  nodup_foldl_insertUnique l [] List.nodup_nil

theorem mem_dedupFirst (l : List String) (x : String) :
    x ∈ dedupFirst l ↔ x ∈ l := by
  unfold dedupFirst
  rw [mem_foldl_insertUnique]
  simp

theorem nodup_split_not_mem (t1 t2 : List String) (n : String)
    (h : (t1 ++ n :: t2).Nodup) : n ∉ t1 ∧ n ∉ t2 := by
  simp [List.nodup_append] at h
  exact ⟨h.2.2.1, h.2.1.1⟩

/-! ### Concrete data for the deletion demonstrations -/

/-- A non-built-in CSV row naming the read-only property c. -/
def rowC : Row :=
  { internalName := "c", displayName := "C", type := "string", description := "d",
    groupName := "g1", formField := "true", options := "", readOnlyValue := "true",
    calculated := "false", externalOptions := "false", deleted := "false",
    hubspotDefined := "false" }

/-- The read-only remote entity named c. -/
def propC : Property :=
  { name := "c", label := "C", type := "string", description := "d",
    groupName := "g1", fieldType := "text", options := none, readOnly := true,
    calculated := false, externalOptions := false, deleted := false,
    hubspotDefined := false }

/-- A run state whose remote store holds only the read-only `propC`. -/
def stC : St := { store := { groups := ["g1"], props := [propC] }, tick := 0 }

/-- A non-built-in CSV row naming the deletable property a. -/
def rowA : Row :=
  { internalName := "a", displayName := "A", type := "string", description := "d",
    groupName := "g1", formField := "true", options := "", readOnlyValue := "false",
    calculated := "false", externalOptions := "false", deleted := "false",
    hubspotDefined := "false" }

/-- A non-built-in CSV row naming the absent property b. -/
def rowB : Row :=
  { internalName := "b", displayName := "B", type := "string", description := "d",
    groupName := "g1", formField := "true", options := "", readOnlyValue := "false",
    calculated := "false", externalOptions := "false", deleted := "false",
    hubspotDefined := "false" }

/-- The deletable remote entity named a. -/
def propA : Property :=
  { name := "a", label := "A", type := "string", description := "d",
    groupName := "g1", fieldType := "text", options := none, readOnly := false,
    calculated := false, externalOptions := false, deleted := false,
    hubspotDefined := false }

/-- A run state whose remote store holds only the deletable `propA`. -/
def stA : St := { store := { groups := ["g1"], props := [propA] }, tick := 0 }

/-! ### Claim theorems: Batch Deleter -/

/-- C4: for a deletion target that is in the fetched snapshot and whose
detail fetch at its processing point returns null (the fetch failed) or a
read-only entity, the batch deleter records the name in the final failure
list and issues no delete request for that name anywhere in the run: the
delete branch is unreachable for protected entries. -/
theorem batchDeleter_never_deletes_protected (err : Nat → Bool) (rows : List Row)
    (s : St) (t1 t2 : List String) (n : String)
    (hsplit : targetsOfRows rows = t1 ++ n :: t2)
    (hsnap : ((getAllCustomProperties err s).1).any (fun p => p.name == n) = true)
    (hprot : protectedAt err n
      (runDeletions err (getAllCustomProperties err s).1 t1
        (getAllCustomProperties err s).2.1).2.1 = true) :
    n ∈ (deletePropertiesFromCSV err rows s).1 ∧
    ∀ e ∈ (deletePropertiesFromCSV err rows s).2.2, e ≠ Event.deleteProp n := by
  have hnd : (targetsOfRows rows).Nodup := dedupFirst_nodup _
  rw [hsplit] at hnd
  obtain ⟨hn1, hn2⟩ := nodup_split_not_mem t1 t2 n hnd
  obtain ⟨hfail, hev⟩ := deleteOne_protected err (getAllCustomProperties err s).1 n
    (runDeletions err (getAllCustomProperties err s).1 t1
      (getAllCustomProperties err s).2.1).2.1 hsnap hprot
  constructor
  · show n ∈ (runDeletions err (getAllCustomProperties err s).1 (targetsOfRows rows)
      (getAllCustomProperties err s).2.1).1
    rw [hsplit, runDeletions_append, runDeletions_cons]
    simp only [List.mem_append]
    right
    left
    rw [hfail]
    exact List.mem_singleton.mpr rfl
  · intro e he
    have he2 : e ∈ (getAllCustomProperties err s).2.2 ++
        (runDeletions err (getAllCustomProperties err s).1 (targetsOfRows rows)
          (getAllCustomProperties err s).2.1).2.2 := he
    rw [hsplit, runDeletions_append, runDeletions_cons] at he2
    simp only [List.mem_append] at he2
    rcases he2 with h0 | (ht1 | (hmid | ht2))
    · have : e = Event.getAllProps := by
        simpa [getAllCustomProperties] using h0
      subst this
      simp
    · exact (runDeletions_no_touch_of_not_mem err _ t1 _ n hn1 e ht1).1
    · rw [hev] at hmid
      rcases List.mem_cons.mp hmid with h1 | h1
      · subst h1; simp
      · rw [List.mem_singleton] at h1
        subst h1
        simp
    · exact (runDeletions_no_touch_of_not_mem err _ t2 _ n hn2 e ht2).1

/-- C4 (witness): the theorem applied to the one-row deletion of the
read-only entity c over a store holding it. -/
theorem batchDeleter_never_deletes_protected_witness :
    "c" ∈ (deletePropertiesFromCSV noErr [rowC] stC).1 :=
  (batchDeleter_never_deletes_protected noErr [rowC] stC [] [] "c"
    (by decide) (by decide) (by decide)).1

/-- C5: a deletion target that is absent from the snapshot of non-built-in
remote definitions is skipped entirely: no detail fetch and no delete
request for that name occur anywhere in the run, and the name is not in
the final failure list. -/
theorem batchDeleter_skips_missing (err : Nat → Bool) (rows : List Row)
    (s : St) (t1 t2 : List String) (n : String)
    (hsplit : targetsOfRows rows = t1 ++ n :: t2)
    (hsnap : ((getAllCustomProperties err s).1).any (fun p => p.name == n) = false) :
    n ∉ (deletePropertiesFromCSV err rows s).1 ∧
    ∀ e ∈ (deletePropertiesFromCSV err rows s).2.2,
      e ≠ Event.deleteProp n ∧ e ≠ Event.getPropByName n := by
  have hnd : (targetsOfRows rows).Nodup := dedupFirst_nodup _
  rw [hsplit] at hnd
  obtain ⟨hn1, hn2⟩ := nodup_split_not_mem t1 t2 n hnd
  have hone := deleteOne_not_found err (getAllCustomProperties err s).1 n
    (runDeletions err (getAllCustomProperties err s).1 t1
      (getAllCustomProperties err s).2.1).2.1 hsnap
  constructor
  · intro hmem
    have hmem2 : n ∈ (runDeletions err (getAllCustomProperties err s).1
        (targetsOfRows rows) (getAllCustomProperties err s).2.1).1 := hmem
    rw [hsplit, runDeletions_append, runDeletions_cons, hone] at hmem2
    simp only [List.mem_append] at hmem2
    rcases hmem2 with h1 | (h2 | h3)
    · exact hn1 (runDeletions_fails_sub err _ t1 _ n h1)
    · simp at h2
    · exact hn2 (runDeletions_fails_sub err _ t2 _ n h3)
  · intro e he
    have he2 : e ∈ (getAllCustomProperties err s).2.2 ++
        (runDeletions err (getAllCustomProperties err s).1 (targetsOfRows rows)
          (getAllCustomProperties err s).2.1).2.2 := he
    rw [hsplit, runDeletions_append, runDeletions_cons, hone] at he2
    simp only [List.mem_append] at he2
    rcases he2 with h0 | (ht1 | (hmid | ht2))
    · have : e = Event.getAllProps := by
        simpa [getAllCustomProperties] using h0
      subst this
      simp
    · exact runDeletions_no_touch_of_not_mem err _ t1 _ n hn1 e ht1
    · simp at hmid
    · exact runDeletions_no_touch_of_not_mem err _ t2 _ n hn2 e ht2

/-- C5 (witness): the theorem applied to the deletion targets a and b
over a store holding only a; the absent b is not recorded as a failure. -/
theorem batchDeleter_skips_missing_witness :
    "b" ∉ (deletePropertiesFromCSV noErr [rowA, rowB] stA).1 :=
  (batchDeleter_skips_missing noErr [rowA, rowB] stA ["a"] [] "b"
    (by decide) (by decide)).1

/-- C10: when the initial snapshot fetch fails, `getAllCustomProperties`
returns the empty list, so every deletion target misses the snapshot: no
detail fetch, no delete request and no pause occur (the run's only
request is the snapshot GET), and the final failure list is empty. -/
theorem batchDeleter_snapshot_failure (err : Nat → Bool) (rows : List Row)
    (s : St) (h : err s.tick = true) :
    (getAllCustomProperties err s).1 = [] ∧
    (deletePropertiesFromCSV err rows s).1 = [] ∧
    (deletePropertiesFromCSV err rows s).2.2 = [Event.getAllProps] := by
  have h1 : (getAllCustomProperties err s).1 = [] := by
    simp [getAllCustomProperties, h]
  refine ⟨h1, ?_, ?_⟩
  · show (runDeletions err (getAllCustomProperties err s).1 (targetsOfRows rows)
      (getAllCustomProperties err s).2.1).1 = []
    rw [h1, runDeletions_empty_snapshot]
  · show (getAllCustomProperties err s).2.2 ++
      (runDeletions err (getAllCustomProperties err s).1 (targetsOfRows rows)
        (getAllCustomProperties err s).2.1).2.2 = [Event.getAllProps]
    rw [h1, runDeletions_empty_snapshot]
    simp [getAllCustomProperties]

/-- C10 (witness): the theorem applied to a failing first request over
the store holding `propA`. -/
theorem batchDeleter_snapshot_failure_witness :
    (deletePropertiesFromCSV errFirst [rowA] stA).1 = [] :=
  (batchDeleter_snapshot_failure errFirst [rowA] stA (by decide)).2.1

/-! ### Claim theorems: Grouping Deleter and Driver -/

theorem runGroupDeletions_events (err : Nat → Bool) (gs : List String) (s : St) :
    (runGroupDeletions err gs s).2 = gs.map Event.deleteGroupCall := by
  induction gs generalizing s with
  | nil => rfl
  | cons g gs ih =>
      show (deleteGroup err g s).2 ++
        (runGroupDeletions err gs (deleteGroup err g s).1).2 = _
      rw [ih]
      rfl

/-- C8: the grouping deleter's trace is exactly one delete-by-name
request per distinct Group name value of the input, in first-occurrence
order — no snapshot fetch, no detail fetch, no pause, and (since the
equation holds for every failure schedule) a failed deletion aborts
nothing.  Every row's group is targeted, with no built-in filter, and each
distinct name occurs exactly once in the target list. -/
theorem groupDeleter_one_delete_per_group (err : Nat → Bool) (rows : List Row)
    (s : St) :
    ((deleteGroupsFromCSV err rows s).2 =
      (dedupFirst (rows.map (fun r => r.groupName))).map Event.deleteGroupCall) ∧
    (∀ g : String, (Event.deleteGroupCall g ∈ (deleteGroupsFromCSV err rows s).2 ↔
      g ∈ rows.map (fun r => r.groupName))) ∧
    (∀ g : String, List.count g (dedupFirst (rows.map (fun r => r.groupName))) =
      if g ∈ rows.map (fun r => r.groupName) then 1 else 0) := by
  have htrace : (deleteGroupsFromCSV err rows s).2 =
      (dedupFirst (rows.map (fun r => r.groupName))).map Event.deleteGroupCall :=
    runGroupDeletions_events err _ s
  refine ⟨htrace, ?_, ?_⟩
  · intro g
    rw [htrace]
    simp [List.mem_map, mem_dedupFirst]
  · intro g
    by_cases hg : g ∈ rows.map (fun r => r.groupName)
    · rw [if_pos hg]
      exact List.count_eq_one_of_mem (dedupFirst_nodup _) ((mem_dedupFirst _ g).mpr hg)
    · rw [if_neg hg]
      exact List.count_eq_zero_of_not_mem (fun hm => hg ((mem_dedupFirst _ g).mp hm))

theorem mainDispatch_config_error (apiKey : Option String) (args : List String) :
    mainDispatch apiKey args = MainOutcome.exitConfigError ↔
      (apiKey = none ∨ apiKey = some "" ∨ args[1]? = none ∨
        args[1]? = some "" ∨ validCommand (args[0]?) = false) := by
  unfold mainDispatch
  by_cases hk : apiKey = none ∨ apiKey = some ""
  · rw [if_pos hk]
    exact ⟨fun _ => by tauto, fun _ => rfl⟩
  · rw [if_neg hk]
    push_neg at hk
    by_cases hp : args[1]? = none ∨ args[1]? = some ""
    · rw [if_pos hp]
      exact ⟨fun _ => by tauto, fun _ => rfl⟩
    · rw [if_neg hp]
      push_neg at hp
      by_cases hc1 : args[0]? = some "import"
      · rw [if_pos hc1]
        constructor
        · intro hcontra
          simp at hcontra
        · intro hrhs
          exfalso
          rcases hrhs with h | h | h | h | h
          · exact hk.1 h
          · exact hk.2 h
          · exact hp.1 h
          · exact hp.2 h
          · simp [validCommand] at h
            exact h.1 hc1
      · rw [if_neg hc1]
        by_cases hc2 : args[0]? = some "delete-properties"
        · rw [if_pos hc2]
          constructor
          · intro hcontra
            simp at hcontra
          · intro hrhs
            exfalso
            rcases hrhs with h | h | h | h | h
            · exact hk.1 h
            · exact hk.2 h
            · exact hp.1 h
            · exact hp.2 h
            · simp [validCommand] at h
              exact h.2.1 hc2
        · rw [if_neg hc2]
          by_cases hc3 : args[0]? = some "delete-groups"
          · rw [if_pos hc3]
            constructor
            · intro hcontra
              simp at hcontra
            · intro hrhs
              exfalso
              rcases hrhs with h | h | h | h | h
              · exact hk.1 h
              · exact hk.2 h
              · exact hp.1 h
              · exact hp.2 h
              · simp [validCommand] at h
                exact h.2.2 hc3
          · rw [if_neg hc3]
            refine ⟨fun _ => ?_, fun _ => rfl⟩
            right; right; right; right
            simp only [validCommand]
            simp
            exact ⟨hc1, hc2, hc3⟩

/-- C9: the process exits with the non-zero code 1 exactly when the
bearer credential is falsy (unset or empty), the input path argument is
falsy (missing or empty), or the operation selector is not one of import,
delete-properties and delete-groups; in that case no remote request is
issued.  Otherwise the dispatched workflow runs and the process exits 0 —
for every failure schedule, i.e. even when per-item operations failed —
and no exit code other than 0 and 1 exists. -/
theorem driver_exit_codes (jparse : String → Option String) (err : Nat → Bool)
    (apiKey : Option String) (args : List String) (rows : List Row) (s : St) :
    (((runMain jparse err apiKey args rows s).1 = 1) ↔
      (apiKey = none ∨ apiKey = some "" ∨ args[1]? = none ∨
        args[1]? = some "" ∨ validCommand (args[0]?) = false)) ∧
    ((runMain jparse err apiKey args rows s).1 = 1 →
      (runMain jparse err apiKey args rows s).2 = []) ∧
    ((runMain jparse err apiKey args rows s).1 = 1 ∨
      (runMain jparse err apiKey args rows s).1 = 0) := by
  have hmd := mainDispatch_config_error apiKey args
  unfold runMain
  rcases h : mainDispatch apiKey args with _ | fp | fp | fp <;> rw [h] at hmd
  · exact ⟨⟨fun _ => hmd.mp rfl, fun _ => rfl⟩, fun _ => rfl, Or.inl rfl⟩
  · exact ⟨⟨fun h01 => (Nat.zero_ne_one h01).elim,
      fun hr => MainOutcome.noConfusion (hmd.mpr hr)⟩,
      fun h01 => (Nat.zero_ne_one h01).elim, Or.inr rfl⟩
  · exact ⟨⟨fun h01 => (Nat.zero_ne_one h01).elim,
      fun hr => MainOutcome.noConfusion (hmd.mpr hr)⟩,
      fun h01 => (Nat.zero_ne_one h01).elim, Or.inr rfl⟩
  · exact ⟨⟨fun h01 => (Nat.zero_ne_one h01).elim,
      fun hr => MainOutcome.noConfusion (hmd.mpr hr)⟩,
      fun h01 => (Nat.zero_ne_one h01).elim, Or.inr rfl⟩
